import Mathlib

/-
Verification of the delay-buffer subsystem and the source-rewriting JIT
analyzer of the BrainPy repository, as a shallow embedding in Lean.

Section 1 embeds the Delay class and the _ShareContext class of
src/brainpy/_src/dyn/context.py.  Buffer rows are a Lean list (row 0
first, mirroring the leading time axis of the data array); machine
integers are Int, and the Python modulo on a positive modulus agrees
with Int emod (both are nonnegative).  The embedding covers the
homogeneous and the no-delay entry kinds; heterogeneous per-element
step arrays and time-to-step conversion are outside the claims treated
here and are noted where relevant.
-/

/-- Update method of a Delay buffer: ROTATE_UPDATE or CONCAT_UPDATE. -/
inductive Method where
  | rotate
  | concat
  deriving DecidableEq, Repr

/-- Translation of Delay._init_data for a target of scalar shape:
data = zeros(length + 1); data[0] = target.value; data[1:] = before_t0
when before_t0 is a number (rows keep the zero fill when before_t0 is
None; the callable form of before_t0 is not needed by the claims). -/
def initData (length : Nat) (target : Int) (beforeT0 : Option Int) : List Int :=
  target :: List.replicate length (beforeT0.getD 0)

/-- Translation of the ROTATE_UPDATE branch of Delay.update: the latest
value is written in place at row (i - 1) mod (length + 1), where i is
the shared step counter loaded from the share context. -/
def rotateUpdate (length : Nat) (i : Int) (data : List Int) (latest : Int) : List Int :=
  data.set (((i - 1) % ((length : Int) + 1)).toNat) latest

/-- Translation of the CONCAT_UPDATE branch of Delay.update: for
length at least 2 the data becomes vstack([latest, data[1:]]); for a
shorter buffer only row 0 is overwritten. -/
def concatUpdate (length : Nat) (data : List Int) (latest : Int) : List Int :=
  if 2 ≤ length then latest :: data.drop 1 else data.set 0 latest

/-- State of a Delay object: the delay length, the optional data rows
(None until allocated), the live target value, the before_t0 fill, the
registered entries (name to optional homogeneous delay step; None is
the no-delay kind), and the update method. -/
structure DelayState where
  length : Nat
  data : Option (List Int)
  target : Int
  beforeT0 : Option Int
  entries : List (String × Option Int)
  method : Method
  deriving DecidableEq, Repr

/-- Translation of Delay.update: a no-op when data is None; otherwise
the method dispatch, with latest_value defaulting to the target value.
The argument i is the shared step counter visible during this step. -/
def delayUpdate (d : DelayState) (i : Int) (latest : Option Int) : DelayState :=
  match d.data with
  | none => d
  | some rows =>
    let v := latest.getD d.target
    match d.method with
    | Method.rotate => { d with data := some (rotateUpdate d.length i rows v) }
    | Method.concat => { d with data := some (concatUpdate d.length rows v) }

/-- Translation of Delay.retrieve for a homogeneous delay step with
checking enabled: a step above the length fails through
jit_error_checking; the rotate method reads row
(i + delay_step) mod (length + 1) and the concat method reads row
delay_step.  Reading a missing data array or an out-of-range row is an
error. -/
def retrieve (d : DelayState) (i : Int) (delayStep : Int) : Except String Int :=
  if (d.length : Int) < delayStep then Except.error ("delay overflow") else
  match d.data with
  | none => Except.error ("no data")
  | some rows =>
    let idx : Nat :=
      match d.method with
      | Method.rotate => (((i + delayStep) % ((d.length : Int) + 1)).toNat)
      | Method.concat => delayStep.toNat
    match rows.get? idx with
    | some v => Except.ok v
    | none => Except.error ("IndexError")

/-- Translation of Delay.at for an entry with a no-delay or homogeneous
step: a missing entry is a KeyError; a None step returns the live
target value; with no allocated data the live target value is returned;
otherwise the step is retrieved. -/
def atEntry (d : DelayState) (i : Int) (entry : String) : Except String Int :=
  match d.entries.lookup entry with
  | none => Except.error ("KeyError")
  | some none => Except.ok d.target
  | some (some step) =>
    match d.data with
    | none => Except.ok d.target
    | some _ => retrieve d i step

/-- Translation of Delay.register_entry restricted to the None and
homogeneous integer step kinds: a duplicate entry name is a KeyError;
when the step exceeds the current length, _init_data reallocates the
buffer (discarding the old rows) and the length is raised; finally the
entry is recorded. -/
def registerEntry (d : DelayState) (entry : String) (delayStep : Option Int) :
    Except String DelayState :=
  if (d.entries.lookup entry).isSome then Except.error ("entry registered") else
  match delayStep with
  | none => Except.ok { d with entries := d.entries ++ [(entry, none)] }
  | some step =>
    let d1 :=
      if (d.length : Int) < step then
        { d with data := some (initData step.toNat d.target d.beforeT0),
                 length := step.toNat }
      else d
    Except.ok { d1 with entries := d1.entries ++ [(entry, some step)] }

/-- Feed a list of values to a concat-method buffer, one update per
step (the step counter is not consulted by the concat branch). -/
def concatRun (length : Nat) (data : List Int) (vs : List Int) : List Int :=
  vs.foldl (concatUpdate length) data

/-- Feed a list of values to a rotate-method buffer, one update per
step, with the shared step counter starting at c and advancing by one
before each further update. -/
def rotateRun (length : Nat) (data : List Int) (c : Int) (vs : List Int) : List Int :=
  match vs with
  | [] => data
  | v :: rest => rotateRun length (rotateUpdate length c data v) (c + 1) rest

/-- Claim C1 evaluated at its failing input: a concat buffer of length
2 (rows initialized to target 10 and fill 0) fed the values 1, 2, 3
(three updates, which is length + 1) ends as [3, 0, 0]: the update
assigns vstack([latest, data[1:]]), so rows 1 and beyond never change,
while the claim wants the last three pushed values most-recent-first,
[3, 2, 1]. -/
theorem C1_concat_rows_stale :
    concatRun 2 (initData 2 10 (some 0)) [1, 2, 3] = [3, 0, 0] ∧
      ([3, 0, 0] : List Int) ≠ [3, 2, 1] := by
  constructor
  · rfl
  · decide

/-- Claim C2 evaluated at its failing input: a rotate buffer of length
3, fed the k = 4 = length + 1 values 1, 2, 3, 4 at steps i = 0..3,
read at lag 2 in the step of the last update (i = 3) gives 3 and in
the following step (i = 4) gives 4; the claim wants the value pushed
two updates before the last one, 2.  The write row
(i - 1) mod (length + 1) advances with the increasing step counter, so
the read row (i + L) mod (length + 1) lands on the value pushed
length + 1 - L steps earlier (mod wrap) rather than L steps
earlier. -/
theorem C2_rotate_lag_inverted :
    rotateRun 3 (initData 3 0 (some 0)) 0 [1, 2, 3, 4] = [2, 3, 4, 1] ∧
      retrieve { length := 3, data := some [2, 3, 4, 1], target := 4,
                 beforeT0 := some 0, entries := [], method := Method.rotate } 3 2 =
        Except.ok 3 ∧
      retrieve { length := 3, data := some [2, 3, 4, 1], target := 4,
                 beforeT0 := some 0, entries := [], method := Method.rotate } 4 2 =
        Except.ok 4 ∧
      (3 : Int) ≠ 2 ∧ (4 : Int) ≠ 2 := by
  refine ⟨by rfl, by rfl, by rfl, by decide, by decide⟩

/-- Delay buffer used for the zero-lag claim: length 1, rotate method,
one entry of delay step 0, data already allocated. -/
def c3Init : DelayState :=
  { length := 1, data := some [10, 0], target := 10, beforeT0 := some 0,
    entries := [("e", some 0)], method := Method.rotate }

/-- Claim C3 evaluated at its failing input: on a rotate buffer of
length 1 with an entry registered at delay step 0, pushing 1 at step
i = 0 and 2 at step i = 1 and then reading the entry at i = 1 returns
1, not the most recently pushed value 2: the zero-lag read row
(i + 0) mod 2 is not the row the update just wrote, (i - 1) mod 2. -/
theorem C3_zero_lag_stale :
    atEntry (delayUpdate (delayUpdate c3Init 0 (some 1)) 1 (some 2)) 1 "e" =
        Except.ok 1 ∧
      (1 : Int) ≠ 2 := by
  refine ⟨by rfl, by decide⟩

/-- Delay buffer used for the registration-growth claim: length 1,
data rows [2, 1] recorded by earlier updates (row 1 holds the genuine
history value 1, readable through the registered entry e1 of step 1),
target currently 2. -/
def c4Init : DelayState :=
  { length := 1, data := some [2, 1], target := 2, beforeT0 := some 0,
    entries := [("e1", some 1)], method := Method.rotate }

/-- Delay buffer state produced by registering entry e2 with step 3 on
c4Init: the buffer is reallocated from the current target and the
before_t0 fill. -/
def c4After : DelayState :=
  { length := 3, data := some [2, 0, 0, 0], target := 2, beforeT0 := some 0,
    entries := [("e1", some 1), ("e2", some 3)], method := Method.rotate }

/-- Claim C4 as stated fails: registering a larger lag on c4Init
reallocates the data through _init_data, so the previously recorded
history row 1 (value 1, reachable through the still-registered entry
e1) is replaced by the before_t0 fill 0 and the value 1 is no longer
anywhere in the buffer. -/
theorem C4_history_discarded :
    registerEntry c4Init "e2" (some 3) = Except.ok c4After ∧
      c3Init.length = 1 ∧
      c4After.data = some [2, 0, 0, 0] ∧
      (1 : Int) ∈ [2, 1] ∧ ¬ ((1 : Int) ∈ [2, 0, 0, 0]) := by
  refine ⟨by rfl, by rfl, by rfl, by decide, by decide⟩

/-- Claim C4 amended: every successful register_entry call grows the
length monotonically (the length never shrinks), though growing the
capacity reallocates the buffer from the current target and before_t0
and so does not preserve previously recorded history rows. -/
theorem C4_length_monotone (d : DelayState) (entry : String) (step : Option Int)
    (d2 : DelayState) (h : registerEntry d entry step = Except.ok d2) :
    d.length ≤ d2.length := by
  unfold registerEntry at h
  by_cases hdup : (d.entries.lookup entry).isSome
  · simp [hdup] at h
  · simp [hdup] at h
    match step, h with
    | none, h =>
      simp at h
      subst h
      exact Nat.le_refl _
    | some s, h =>
      simp at h
      by_cases hlt : (d.length : Int) < s
      · simp [hlt] at h
        subst h
        simp
        omega
      · simp [hlt] at h
        subst h
        exact Nat.le_refl _

/-- Witness for the amended claim C4 at a concrete input: registering
entry e2 with step 3 on the length-1 buffer c4Init yields c4After and
the length does not shrink. -/
theorem C4_length_monotone_witness : c4Init.length ≤ c4After.length :=
  C4_length_monotone c4Init "e2" (some 3) c4After (by rfl)

/-
Section 2 embeds the _ShareContext class of
src/brainpy/_src/dyn/context.py: save with its positional pairing loop
and keyword arguments, and load with the dt accessor.
-/

/-- Python value passed to _ShareContext.save: an identifier string, a
Delay object (carried by an identity number), or a plain datum. -/
inductive SaveItem where
  | name (s : String)
  | delayObj (objId : Int)
  | plainObj (v : Int)
  deriving DecidableEq, Repr

/-- Assignment into a Python dict modelled as an association list: an
existing key keeps its insertion position and gets the new value, a new
key is appended. -/
def assocSet (m : List (SaveItem × SaveItem)) (k v : SaveItem) :
    List (SaveItem × SaveItem) :=
  if (m.lookup k).isSome then
    m.map (fun kv => if kv.1 = k then (k, v) else kv)
  else m ++ [(k, v)]

/-- Translation of the positional loop of _ShareContext.save.  The
Python loop is for i in range(0, len(args), 2), so i runs over
0, 2, 4, ...; the body then reads args[i * 2] and args[i * 2 + 1], and
a read past the end of args is an IndexError.  A Delay value whose
identifier is already in the delays dict is a ValueError; otherwise a
Delay goes to delays and anything else to arguments. -/
def saveLoop (args : List SaveItem) (iVals : List Nat)
    (delays arguments : List (SaveItem × SaveItem)) :
    Except String (List (SaveItem × SaveItem) × List (SaveItem × SaveItem)) :=
  match iVals with
  | [] => Except.ok (delays, arguments)
  | i :: rest =>
    match args.get? (i * 2), args.get? (i * 2 + 1) with
    | some identifier, some data =>
      match data with
      | SaveItem.delayObj _ =>
        if (delays.lookup identifier).isSome then Except.error ("ValueError")
        else saveLoop args rest (delays ++ [(identifier, data)]) arguments
      | _ => saveLoop args rest delays (assocSet arguments identifier data)
    | _, _ => Except.error ("IndexError")

/-- Translation of the keyword loop of _ShareContext.save, iterating
the keyword mapping in order. -/
def saveKwargs (kwargs : List (SaveItem × SaveItem))
    (delays arguments : List (SaveItem × SaveItem)) :
    Except String (List (SaveItem × SaveItem) × List (SaveItem × SaveItem)) :=
  match kwargs with
  | [] => Except.ok (delays, arguments)
  | (identifier, data) :: rest =>
    match data with
    | SaveItem.delayObj _ =>
      if (delays.lookup identifier).isSome then Except.error ("ValueError")
      else saveKwargs rest (delays ++ [(identifier, data)]) arguments
    | _ => saveKwargs rest delays (assocSet arguments identifier data)

/-- Translation of _ShareContext.save: the length of the positional
argument list must be even, then the positional loop runs over
i in range(0, len(args), 2) and the keyword loop follows. -/
def contextSave (delays arguments : List (SaveItem × SaveItem))
    (args : List SaveItem) (kwargs : List (SaveItem × SaveItem)) :
    Except String (List (SaveItem × SaveItem) × List (SaveItem × SaveItem)) :=
  if args.length % 2 ≠ 0 then Except.error ("AssertionError") else
  match saveLoop args ((List.range ((args.length + 1) / 2)).map (fun k => 2 * k))
      delays arguments with
  | Except.error e => Except.error e
  | Except.ok (d2, a2) => saveKwargs kwargs d2 a2

/-- Claim C5 evaluated at its failing input: save given the two
positional pairs a = 1, b = 2 raises an IndexError instead of storing
both pairs, because the loop index i already advances in steps of two
and the body nevertheless reads args[i * 2], which is args[4] on the
second iteration; a single pair is stored fine. -/
theorem C5_save_index_error :
    contextSave [] []
        [SaveItem.name "a", SaveItem.plainObj 1, SaveItem.name "b",
         SaveItem.plainObj 2] [] =
      Except.error ("IndexError") ∧
      contextSave [] [] [SaveItem.name "a", SaveItem.plainObj 1] [] =
        Except.ok ([], [(SaveItem.name "a", SaveItem.plainObj 1)]) := by
  refine ⟨by rfl, by rfl⟩

/-- State of the share context as seen by load: the arguments mapping
and the delays mapping, both keyed by name.  The stored values are
opaque to load and are modelled by Int. -/
structure ShareCtx where
  arguments : List (String × Int)
  delays : List (String × Int)
  deriving DecidableEq, Repr

/-- Models get_dt(), the process-wide default time step consulted when
dt is not explicitly set (an opaque constant here). -/
def globalDt : Int := 1

/-- Translation of the _ShareContext.dt accessor: the dt entry of the
arguments mapping when present, otherwise the global default time
step. -/
def ctxDt (c : ShareCtx) : Int :=
  (c.arguments.lookup "dt").getD globalDt

/-- Translation of _ShareContext.load: the dt key goes through the dt
accessor; otherwise the arguments mapping is consulted, then the delays
mapping, then the default; load(key) with no default (Python None) is a
KeyError. -/
def ctxLoad (c : ShareCtx) (key : String) (dflt : Option Int) : Except String Int :=
  if key = "dt" then Except.ok (ctxDt c) else
  match c.arguments.lookup key with
  | some v => Except.ok v
  | none =>
    match c.delays.lookup key with
    | some v => Except.ok v
    | none =>
      match dflt with
      | some v => Except.ok v
      | none => Except.error ("KeyError")

/-- Claim C6: load returns dt through the accessor (with the global
default time step as fallback) when asked for dt; otherwise it returns
the arguments entry when present, else the delays entry when present,
else the given default; and it fails with the missing-shared-key error
exactly when the key is not dt, is in neither mapping, and no default
was given. -/
theorem C6_load_spec (c : ShareCtx) (key : String) (dflt : Option Int) :
    (ctxLoad c "dt" dflt = Except.ok ((c.arguments.lookup "dt").getD globalDt)) ∧
    (key ≠ "dt" → ∀ v, c.arguments.lookup key = some v →
      ctxLoad c key dflt = Except.ok v) ∧
    (key ≠ "dt" → c.arguments.lookup key = none → ∀ v,
      c.delays.lookup key = some v → ctxLoad c key dflt = Except.ok v) ∧
    (key ≠ "dt" → c.arguments.lookup key = none → c.delays.lookup key = none →
      ∀ v, dflt = some v → ctxLoad c key dflt = Except.ok v) ∧
    ((∃ e, ctxLoad c key dflt = Except.error e) ↔
      (key ≠ "dt" ∧ c.arguments.lookup key = none ∧ c.delays.lookup key = none ∧
        dflt = none)) := by
  refine ⟨by simp [ctxLoad, ctxDt], ?_, ?_, ?_, ?_⟩
  · intro hk v hv
    simp [ctxLoad, hk, hv]
  · intro hk ha v hv
    simp [ctxLoad, hk, ha, hv]
  · intro hk ha hd v hv
    simp [ctxLoad, hk, ha, hd, hv]
  · constructor
    · rintro ⟨e, he⟩
      by_cases hk : key = "dt"
      · simp [ctxLoad, hk] at he
      · refine ⟨hk, ?_⟩
        simp [ctxLoad, hk] at he
        match ha : c.arguments.lookup key with
        | some v => simp [ha] at he
        | none =>
          refine ⟨rfl, ?_⟩
          simp [ha] at he
          match hd : c.delays.lookup key with
          | some v => simp [hd] at he
          | none =>
            refine ⟨rfl, ?_⟩
            simp [hd] at he
            match hf : dflt with
            | some v => simp [hf] at he
            | none => rfl
    · rintro ⟨hk, ha, hd, hf⟩
      exact ⟨"KeyError", by simp [ctxLoad, hk, ha, hd, hf]⟩

/-- Share context used for the load witness. -/
def c6Ctx : ShareCtx := { arguments := [("t", 7)], delays := [("d1", 3)] }

/-- Witness for claim C6 at concrete inputs: on c6Ctx, load of a key in
neither mapping with no default is the missing-shared-key error, and
load of dt falls back to the global default time step. -/
theorem C6_load_witness :
    (∃ e, ctxLoad c6Ctx "x" none = Except.error e) ∧
      ctxLoad c6Ctx "dt" none = Except.ok globalDt := by
  constructor
  · exact (C6_load_spec c6Ctx "x" none).2.2.2.2.mpr ⟨by decide, by rfl, by rfl, rfl⟩
  · exact (C6_load_spec c6Ctx "dt" none).1

/-
Section 3 embeds ObjectJIT.__call__ of
src/brainpy/math/object_transform/jit.py.  The tracked variable
collection is an association list from variable key to value (the
items of the vars dict in insertion order).  The jitted function is
modelled as a map from the snapshot to a pair of the call outcome (the
result together with the changes dict computed inside jitted_func, or
the raised exception) and the physical state the variable objects are
left in by the call (arbitrary under a failed trace).
-/

/-- Keys of a variable collection, in insertion order. -/
def varKeys (vs : List (String × Int)) : List String :=
  vs.map Prod.fst

/-- Translation of the per-variable assignment loops of
ObjectJIT.__call__ (for key, v in self._vars.items():
v._value = source[key]): every current entry keeps its key and takes
the value the source dict holds for that key. -/
def restoreVars (cur source : List (String × Int)) : List (String × Int) :=
  cur.map (fun kv => (kv.1, (source.lookup kv.1).getD kv.2))

/-- Writing back a source dict with exactly the current keys (no key
appearing twice) reproduces the source dict itself. -/
theorem restoreVars_eq_source (cur source : List (String × Int))
    (hk : varKeys cur = varKeys source) (hnd : (varKeys source).Nodup) :
    restoreVars cur source = source := by
  induction cur generalizing source with
  | nil =>
    cases source with
    | nil => rfl
    | cons b tl => simp [varKeys] at hk
  | cons a curT ih =>
    cases source with
    | nil => simp [varKeys] at hk
    | cons b srcT =>
      have hab : a.1 = b.1 := by
        have := congrArg (fun l => l.head?) hk
        simpa [varKeys] using this
      have htl : varKeys curT = varKeys srcT := by
        have := congrArg (fun l => l.tail) hk
        simpa [varKeys] using this
      have hnd2 : (b.1 :: varKeys srcT).Nodup := by
        simpa [varKeys] using hnd
      have hbNot : b.1 ∉ varKeys srcT := (List.nodup_cons.mp hnd2).1
      have hndT : (varKeys srcT).Nodup := (List.nodup_cons.mp hnd2).2
      unfold restoreVars
      simp only [List.map_cons]
      have hhead : (a.1, ((b :: srcT).lookup a.1).getD a.2) = b := by
        have hl : (b :: srcT).lookup a.1 = some b.2 := by
          simp [List.lookup, hab]
        rw [hl]
        simp [hab]
      rw [hhead]
      have htail : curT.map (fun kv => (kv.1, ((b :: srcT).lookup kv.1).getD kv.2)) =
          restoreVars curT srcT := by
        unfold restoreVars
        apply List.map_congr_left
        intro kv hkv
        have hkvMem : kv.1 ∈ varKeys srcT := by
          rw [← htl]
          exact List.mem_map_of_mem Prod.fst hkv
        have hne : kv.1 ≠ b.1 := by
          intro hEq
          exact hbNot (hEq ▸ hkvMem)
        have hbeq : (kv.1 == b.1) = false := beq_eq_false_iff_ne.mpr hne
        simp [List.lookup, hbeq]
      rw [htail, ih srcT htl hndT]

/-- Translation of ObjectJIT.__call__: the snapshot variable_data is
taken; the jitted function runs on it, returning the outcome (result
with the changes dict, or the raised exception) and the physical state
the variable objects were left in; an exception restores every
variable from the snapshot and re-raises, while success writes the
changes dict back. -/
def objectJITCall
    (f : List (String × Int) →
      Except String (Int × List (String × Int)) × List (String × Int))
    (vars0 : List (String × Int)) :
    Except String Int × List (String × Int) :=
  match f vars0 with
  | (Except.ok (out, changes), varsAfter) =>
    (Except.ok out, restoreVars varsAfter changes)
  | (Except.error e, varsAfter) =>
    (Except.error e, restoreVars varsAfter vars0)

/-- Unfolding of objectJITCall when the jitted function raises. -/
theorem objectJITCall_error
    (f : List (String × Int) →
      Except String (Int × List (String × Int)) × List (String × Int))
    (vars0 : List (String × Int)) (e : String) (after : List (String × Int))
    (hfv : f vars0 = (Except.error e, after)) :
    objectJITCall f vars0 = (Except.error e, restoreVars after vars0) := by
  unfold objectJITCall
  rw [hfv]

/-- Unfolding of objectJITCall when the jitted function succeeds. -/
theorem objectJITCall_ok
    (f : List (String × Int) →
      Except String (Int × List (String × Int)) × List (String × Int))
    (vars0 : List (String × Int)) (out : Int)
    (changes after : List (String × Int))
    (hfv : f vars0 = (Except.ok (out, changes), after)) :
    objectJITCall f vars0 = (Except.ok out, restoreVars after changes) := by
  unfold objectJITCall
  rw [hfv]

/-- Claim C10: whenever the jitted function raises, every registered
variable is restored to its pre-call snapshot before the exception
propagates, so a failed call leaves the tracked variable state
unchanged; on success every variable takes its post-call value from
the changes dict.  The hypotheses record what holds of the real
collector: the variable keys are distinct, and the call leaves the
same variable objects in place (same keys, in the same insertion
order) both in the physical state and in the returned changes dict. -/
theorem C10_exception_restores
    (f : List (String × Int) →
      Except String (Int × List (String × Int)) × List (String × Int))
    (vars0 : List (String × Int))
    (hnd : (varKeys vars0).Nodup)
    (hkeys : varKeys (f vars0).2 = varKeys vars0)
    (hchg : ∀ out changes, (f vars0).1 = Except.ok (out, changes) →
      varKeys changes = varKeys vars0) :
    (∀ e, (f vars0).1 = Except.error e →
      (objectJITCall f vars0).1 = Except.error e ∧
        (objectJITCall f vars0).2 = vars0) ∧
    (∀ out changes, (f vars0).1 = Except.ok (out, changes) →
      (objectJITCall f vars0).1 = Except.ok out ∧
        (objectJITCall f vars0).2 = changes) := by
  constructor
  · intro e he
    rcases hfv : f vars0 with ⟨res, after⟩
    have hkeys2 : varKeys after = varKeys vars0 := by
      have h := hkeys
      rw [hfv] at h
      exact h
    cases res with
    | error e0 =>
      have he0 : e0 = e := by
        rw [hfv] at he
        simpa using he
      subst he0
      rw [objectJITCall_error f vars0 e0 after hfv]
      exact ⟨rfl, restoreVars_eq_source after vars0 hkeys2 hnd⟩
    | ok p =>
      rw [hfv] at he
      simp at he
  · intro out changes hok
    rcases hfv : f vars0 with ⟨res, after⟩
    have hkeys2 : varKeys after = varKeys vars0 := by
      have h := hkeys
      rw [hfv] at h
      exact h
    have hres : res = Except.ok (out, changes) := by
      rw [hfv] at hok
      simpa using hok
    subst hres
    rw [objectJITCall_ok f vars0 out changes after hfv]
    have hchg2 : varKeys changes = varKeys vars0 := hchg out changes hok
    refine ⟨rfl, ?_⟩
    exact restoreVars_eq_source after changes (hkeys2.trans hchg2.symm)
      (by rw [hchg2]; exact hnd)

/-- Jitted function used for the C10 witness: it raises, and it leaves
the physical variable values clobbered with tracer garbage. -/
def c10F (s : List (String × Int)) :
    Except String (Int × List (String × Int)) × List (String × Int) :=
  (Except.error ("boom"), s.map (fun kv => (kv.1, 999)))

/-- Variable collection used for the C10 witness. -/
def c10Vars : List (String × Int) := [("a", 1), ("b", 2)]

/-- Witness for claim C10 at a concrete input: the wrapped call on the
raising jitted function c10F propagates the exception and leaves the
two tracked variables at their pre-call values. -/
theorem C10_exception_restores_witness :
    (objectJITCall c10F c10Vars).1 = Except.error ("boom") ∧
      (objectJITCall c10F c10Vars).2 = c10Vars :=
  (C10_exception_restores c10F c10Vars (by decide) (by rfl)
    (fun out changes h => by simp [c10F] at h)).1 "boom" (by rfl)


/-
Section 4 embeds the rewriting pipeline of
src/brainpy/math/numpy/ast2numba.py: the FuncTransformer call-site
rewriter, the attribute-chain resolution loop of _analyze_cls_func,
and the hoisted-argument collection with its sorted append.  The file
itself requires Python 3.6 or newer (it uses f-strings and builds
ast.Constant nodes); from Python 3.5 on, an ast.Call node has no
starargs and no kwargs attribute: a starred argument is an ast.Starred
element of the args list, and a double-star argument is a keyword with
a None arg.  The embedding of ast.Call therefore carries args and
keywords in that form, and getattr(node, that-name, None) on the
removed attributes is the constant None.
-/

/-- Positional argument of an ast.Call node: a plain expression
(rendered as its source text) or an ast.Starred element. -/
inductive AstArg where
  | plain (txt : String)
  | starred (txt : String)
  deriving DecidableEq, Repr

/-- Keyword argument of an ast.Call node: name = value, or a
double-star unpacking (a keyword whose arg is None). -/
inductive AstKeyword where
  | kw (arg : String) (value : String)
  | doublestar (value : String)
  deriving DecidableEq, Repr

/-- An ast.Call node: the textual form of the called function, the
positional arguments and the keyword arguments. -/
structure AstCall where
  funcName : String
  args : List AstArg
  keywords : List AstKeyword
  deriving DecidableEq, Repr

/-- Models getattr(node, the-starargs-name, None) on an ast.Call node
of Python 3.5 or newer: the attribute does not exist, so the lookup
always yields None. -/
def getattrStarargs (_node : AstCall) : Option String := none

/-- Models getattr(node, the-kwargs-name, None) on an ast.Call node of
Python 3.5 or newer: the attribute does not exist, so the lookup
always yields None. -/
def getattrKwargs (_node : AstCall) : Option String := none

/-- Models sorted(arguments) on a Python set of names: duplicates
collapse and the order is lexicographic. -/
def pySortedSet (xs : List String) : List String :=
  (xs.dedup).insertionSort (fun a b => a ≤ b)

/-- Translation of FuncTransformer.visit_Call: the two variadic guards
consult the removed attributes and so never fire; a call whose textual
function name matches the target drops the leading self argument when
so instructed (reading the id attribute of a starred first argument
raises, and an empty argument list raises an IndexError), then appends
the extra names as name=name keywords, in the sorted order fixed at
construction; any other call is left alone. -/
def visitCall (funcName : String) (argToAppend : List String)
    (removeSelf : Option String) (node : AstCall) : Except String AstCall :=
  match getattrStarargs node with
  | some _ => Except.error ("ValueError star args")
  | none =>
  match getattrKwargs node with
  | some _ => Except.error ("ValueError double star")
  | none =>
  if node.funcName = funcName then
    let newKw := (pySortedSet argToAppend).map (fun k => AstKeyword.kw k k)
    match removeSelf with
    | none => Except.ok { node with keywords := node.keywords ++ newKw }
    | some s =>
      match node.args.head? with
      | none => Except.error ("IndexError")
      | some (AstArg.starred _) => Except.error ("AttributeError")
      | some (AstArg.plain n) =>
        let args2 := if n = s then node.args.drop 1 else node.args
        Except.ok { node with args := args2, keywords := node.keywords ++ newKw }
  else Except.ok node

/-- Call node of the C7 failing input: a rewrite-target call site
using a starred (variadic) argument. -/
def c7Call : AstCall :=
  { funcName := "self.f", args := [AstArg.starred ("args")], keywords := [] }

/-- Call node of the C7 failing input for the keyword form: a
rewrite-target call site using a double-star argument. -/
def c7CallKw : AstCall :=
  { funcName := "self.f", args := [], keywords := [AstKeyword.doublestar ("kw")] }

/-- Claim C7 evaluated at its failing input: the rewriter does not
fail fast on a variadic rewrite-target call site.  On the Python
versions able to parse this file the starargs and kwargs attributes of
ast.Call no longer exist, so both guards read None and the transformer
rewrites the call, appending the new keywords after the starred or
double-starred argument. -/
theorem C7_variadic_not_rejected :
    visitCall "self.f" ["Sub0_w"] none c7Call =
        Except.ok { funcName := "self.f", args := [AstArg.starred ("args")],
                    keywords := [AstKeyword.kw "Sub0_w" "Sub0_w"] } ∧
      visitCall "self.f" ["Sub0_w"] none c7CallKw =
        Except.ok { funcName := "self.f", args := [],
                    keywords := [AstKeyword.doublestar ("kw"),
                                 AstKeyword.kw "Sub0_w" "Sub0_w"] } := by
  refine ⟨by rfl, by rfl⟩

/-
Section 5 embeds the attribute-access analysis of _analyze_cls_func.
A stateful object graph is a list of objects, each with a name and an
attribute mapping; an attribute is a further stateful sub-object (a
Base instance), a mutable array state (math.Variable), a random-number
state, a nested callable (carrying the self-rooted attribute chains of
its own body, the result of the regex scan over its source), or plain
data.  The chain resolution loop walks successive attributes from the
host until a non-Base value is found; analysis of a nested callable
recurses into its chains with the object it was found on as the new
host.  The recursion of the source has no fuel and no visited check;
the Lean embedding adds an explicit fuel so that the function is
total, with a distinguished fuel-exhaustion outcome.
-/

/-- Attribute value in the stateful object graph. -/
inductive PyAttr where
  | base (objIdx : Nat)
  | var
  | randomState
  | func (chains : List (List String))
  | dataAttr
  deriving DecidableEq, Repr

/-- Stateful object: its unique name and its attribute mapping. -/
structure PyObj where
  name : String
  attrs : List (String × PyAttr)
  deriving DecidableEq, Repr

/-- The object graph: objects addressed by index (object identity). -/
structure ObjGraph where
  objs : List PyObj
  deriving DecidableEq, Repr

/-- Object lookup by identity. -/
def getObj (g : ObjGraph) (i : Nat) : Option PyObj :=
  g.objs.get? i

/-- Translation of the attribute walk of _analyze_cls_func (the for
loop over split_keys[1:]): successive getattr from the current target;
a Base value continues the walk, any other value stops it and is the
resolved datum, together with the keys left after the stop; running
out of keys while still on a Base value is the for-else error of the
source, and a missing attribute is an AttributeError. -/
def walkChain (g : ObjGraph) (target : Nat) :
    List String → Except String (Nat × String × PyAttr × List String)
  | [] => Except.error ("BrainPyError")
  | k :: rest =>
    match getObj g target with
    | none => Except.error ("AttributeError")
    | some obj =>
      match obj.attrs.lookup k with
      | none => Except.error ("AttributeError")
      | some (PyAttr.base j) =>
        match rest with
        | [] => Except.error ("BrainPyError")
        | _ :: _ => walkChain g j rest
      | some a => Except.ok (target, k, a, rest)

/-- Translation of the per-chain resolution: the chain is the dotted
expression split on dots; fewer than two components is an error, and
the walk starts at the host with the first component (the class
keyword) dropped. -/
def resolveChain (g : ObjGraph) (host : Nat) (chain : List String) :
    Except String (Nat × String × PyAttr × List String) :=
  match chain with
  | [] => Except.error ("BrainPyError")
  | [_] => Except.error ("BrainPyError")
  | _ :: rest => walkChain g host rest

/-- Synthesized hoisted-argument name, the target object name joined to
the terminal attribute name by an underscore. -/
def argName (g : ObjGraph) (objIdx : Nat) (attr : String) : String :=
  match getObj g objIdx with
  | some obj => obj.name ++ ("_") ++ attr
  | none => ("_") ++ attr

/-- Outcome of an analyzer run: exhaustion of the modelling fuel
(standing for nontermination of the unbounded source recursion) or a
Python-level error. -/
inductive AErr where
  | fuelOut
  | pyErr (msg : String)
  deriving DecidableEq, Repr

/-- Translation of the chain loop of _analyze_cls_func, collecting the
hoisted argument names: a chain resolving to a mutable array state
contributes its synthesized name; a random state or plain data
contributes nothing (they go to the code scope); a nested callable,
which the source requires to be the final chain component, is analyzed
recursively with the object it was found on as host, contributing that
analysis' hoisted names.  The recursion consumes one unit of fuel per
nested callable. -/
def analyzeFunc (g : ObjGraph) : Nat → Nat → List (List String) →
    Except AErr (List String)
  | 0, _, _ => Except.error AErr.fuelOut
  | fuel + 1, host, chains =>
    chains.foldlM (fun acc chain =>
      (match resolveChain g host chain with
       | Except.error m => Except.error (AErr.pyErr m)
       | Except.ok (tIdx, attr, a, restK) =>
         match a with
         | PyAttr.var => Except.ok [argName g tIdx attr]
         | PyAttr.func inner =>
           if restK.isEmpty then analyzeFunc g fuel tIdx inner
           else Except.error (AErr.pyErr ("AssertionError"))
         | _ => Except.ok ([] : List String)).map (fun xs => acc ++ xs)) []

/-- Hoisted names contributed by one chain, at the given fuel for
nested analysis. -/
def chainArgs (g : ObjGraph) (fuel host : Nat) (chain : List String) :
    Except AErr (List String) :=
  match resolveChain g host chain with
  | Except.error m => Except.error (AErr.pyErr m)
  | Except.ok (tIdx, attr, a, restK) =>
    match a with
    | PyAttr.var => Except.ok [argName g tIdx attr]
    | PyAttr.func inner =>
      if restK.isEmpty then analyzeFunc g fuel tIdx inner
      else Except.error (AErr.pyErr ("AssertionError"))
    | _ => Except.ok ([] : List String)

/-- Unfolding of a successful analyzer step into the per-chain
contributions. -/
theorem analyzeFunc_succ (g : ObjGraph) (fuel host : Nat)
    (chains : List (List String)) :
    analyzeFunc g (fuel + 1) host chains =
      chains.foldlM (fun acc chain =>
        (chainArgs g fuel host chain).map (fun xs => acc ++ xs)) [] := rfl

/-- Hoisted names of one chain with a failed contribution flattened to
the empty list (used to describe successful runs). -/
def exChainArgs (g : ObjGraph) (fuel host : Nat) (chain : List String) :
    List String :=
  match chainArgs g fuel host chain with
  | Except.ok xs => xs
  | Except.error _ => []

/-- A successful contribution fold is the concatenation of the
per-chain contributions, in chain order. -/
theorem foldlM_chainArgs_ok (g : ObjGraph) (fuel host : Nat) :
    ∀ (chains : List (List String)) (acc res : List String),
      chains.foldlM (fun acc2 chain =>
        (chainArgs g fuel host chain).map (fun xs => acc2 ++ xs)) acc =
          Except.ok res →
      res = acc ++ (chains.map (exChainArgs g fuel host)).flatten := by
  intro chains
  induction chains with
  | nil =>
    intro acc res h
    have h2 : (Except.ok acc : Except AErr (List String)) = Except.ok res := h
    cases h2
    simp
  | cons c rest ih =>
    intro acc res h
    rw [List.foldlM_cons] at h
    match hc : chainArgs g fuel host c with
    | Except.error e =>
      rw [hc] at h
      have h2 : (Except.error e : Except AErr (List String)) = Except.ok res := h
      cases h2
    | Except.ok xs =>
      rw [hc] at h
      have h2 : rest.foldlM (fun acc2 chain =>
          (chainArgs g fuel host chain).map (fun xs2 => acc2 ++ xs2))
            (acc ++ xs) = Except.ok res := h
      have h3 := ih (acc ++ xs) res h2
      rw [h3]
      simp [exChainArgs, hc, List.append_assoc]

/-- Permuting an outer list of lists permutes the flattening. -/
theorem perm_flatten_of_perm {α : Type} {l1 l2 : List (List α)}
    (h : l1.Perm l2) : l1.flatten.Perm l2.flatten := by
  induction h with
  | nil => exact List.Perm.refl _
  | cons x _ ih => simpa using ih.append_left x
  | swap x y l =>
    rw [List.flatten_cons, List.flatten_cons, List.flatten_cons,
        List.flatten_cons, ← List.append_assoc, ← List.append_assoc]
    exact List.perm_append_comm.append_right _
  | trans _ _ ih1 ih2 => exact ih1.trans ih2

/-- Successful analyzer runs on permuted chain lists produce permuted
hoisted-name lists. -/
theorem analyzeFunc_perm_ok (g : ObjGraph) (fuel host : Nat)
    (chains1 chains2 : List (List String)) (a1 a2 : List String)
    (hperm : chains1.Perm chains2)
    (h1 : analyzeFunc g fuel host chains1 = Except.ok a1)
    (h2 : analyzeFunc g fuel host chains2 = Except.ok a2) :
    a1.Perm a2 := by
  match fuel with
  | 0 => simp [analyzeFunc] at h1
  | fuel + 1 =>
    rw [analyzeFunc_succ] at h1 h2
    have e1 := foldlM_chainArgs_ok g fuel host chains1 [] a1 h1
    have e2 := foldlM_chainArgs_ok g fuel host chains2 [] a2 h2
    simp only [List.nil_append] at e1 e2
    rw [e1, e2]
    exact perm_flatten_of_perm (hperm.map (exChainArgs g fuel host))

/-- Recognizes a nested-callable attribute. -/
def isFuncAttr : PyAttr → Bool
  | PyAttr.func _ => true
  | _ => false

/-- Holds when a chain resolves successfully from the host and its
terminal value is not a nested callable. -/
def chainResolvesDataLike (g : ObjGraph) (host : Nat) (chain : List String) :
    Bool :=
  match resolveChain g host chain with
  | Except.ok r => ! isFuncAttr r.2.2.1
  | Except.error _ => false

/-- The analyzer diverges on the given function: every amount of fuel
is exhausted, which in the fuel-free source is an unbounded
recursion. -/
def analyzerDiverges (g : ObjGraph) (host : Nat)
    (chains : List (List String)) : Prop :=
  ∀ fuel, analyzeFunc g fuel host chains = Except.error AErr.fuelOut

/-- Cyclic object graph for claim C8: object 0 holds itself as the
stateful sub-object sub, and a method f whose body reads the chain
self.sub.f (the method reached through the cycle is f itself). -/
def cycGraph : ObjGraph :=
  { objs := [{ name := "a",
               attrs := [("sub", PyAttr.base 0),
                         ("f", PyAttr.func [["self", "sub", "f"]])] }] }

/-- Claim C8 as stated fails: on the cyclic object graph cycGraph, the
analysis of the method f never terminates, because the chain self.sub.f
resolves through the cycle back to f itself and the recursive analysis
of a nested callable has no visited-owner check to stop it. -/
theorem C8_cycle_divergence :
    analyzerDiverges cycGraph 0 [["self", "sub", "f"]] := by
  intro fuel
  induction fuel with
  | zero => rfl
  | succ n ih =>
    rw [analyzeFunc_succ]
    have hch : chainArgs cycGraph n 0 ["self", "sub", "f"] =
        Except.error AErr.fuelOut := by
      have hres : resolveChain cycGraph 0 ["self", "sub", "f"] =
          Except.ok (0, "f", PyAttr.func [["self", "sub", "f"]], []) := by rfl
      unfold chainArgs
      rw [hres]
      exact ih
    rw [List.foldlM_cons, hch]
    rfl

/-- Claim C8 amended: the chain walk itself always terminates, even on
a cyclic object graph, because it follows the finite attribute chain
and a revisited owner simply becomes the base for the rest of the
chain; whenever every chain of the analyzed function resolves to a
non-callable value, the whole analysis terminates successfully (fuel 1
suffices, no nested recursion happens).  The analyzer does not track
visited owners to break recursion, so only the nested-callable case
can diverge. -/
theorem C8_no_callable_terminates (g : ObjGraph) (host : Nat)
    (chains : List (List String))
    (h : ∀ chain ∈ chains, chainResolvesDataLike g host chain = true) :
    ∃ args, analyzeFunc g 1 host chains = Except.ok args := by
  rw [show (1 : Nat) = 0 + 1 from rfl, analyzeFunc_succ]
  have hgen : ∀ (cs : List (List String)),
      (∀ c ∈ cs, chainResolvesDataLike g host c = true) →
      ∀ acc, ∃ args, cs.foldlM (fun acc2 chain =>
        (chainArgs g 0 host chain).map (fun xs => acc2 ++ xs)) acc =
          Except.ok args := by
    intro cs
    induction cs with
    | nil =>
      intro _ acc
      exact ⟨acc, rfl⟩
    | cons c rest ih =>
      intro hall acc
      have hc := hall c (List.mem_cons_self c rest)
      have hargs : ∃ xs, chainArgs g 0 host c = Except.ok xs := by
        unfold chainResolvesDataLike at hc
        unfold chainArgs
        match hres : resolveChain g host c with
        | Except.error m =>
          rw [hres] at hc
          simp at hc
        | Except.ok (tIdx, attr, a, restK) =>
          rw [hres] at hc
          cases a with
          | func inner => simp [isFuncAttr] at hc
          | base j => exact ⟨[], rfl⟩
          | var => exact ⟨[argName g tIdx attr], rfl⟩
          | randomState => exact ⟨[], rfl⟩
          | dataAttr => exact ⟨[], rfl⟩
      obtain ⟨xs, hxs⟩ := hargs
      obtain ⟨args, hrest⟩ :=
        ih (fun c2 hc2 => hall c2 (List.mem_cons_of_mem c hc2)) (acc ++ xs)
      refine ⟨args, ?_⟩
      rw [List.foldlM_cons, hxs]
      exact hrest
  exact hgen chains h []

/-- Cyclic object graph without nested callables, for the C8 witness:
object 0 holds itself as sub and a mutable array state v. -/
def cycGraphVar : ObjGraph :=
  { objs := [{ name := "a",
               attrs := [("sub", PyAttr.base 0), ("v", PyAttr.var)] }] }

/-- Witness for the amended claim C8 at a concrete input: on the
cyclic graph cycGraphVar the chain self.sub.v walks through the cycle,
resolves on the revisited owner, and the analysis terminates. -/
theorem C8_no_callable_terminates_witness :
    ∃ args, analyzeFunc cycGraphVar 1 0 [["self", "sub", "v"]] = Except.ok args :=
  C8_no_callable_terminates cycGraphVar 0 [["self", "sub", "v"]] (by decide)

/-- Translation of the final signature synthesis (the sorted extension
of the function arguments by the hoisted names, both in
_analyze_cls_func and in analyze_intg_func): the hoisted parameters
are appended after the original parameters in lexicographic order of
their synthesized names. -/
def appendHoistedParams (params arguments : List String) : List String :=
  params ++ pySortedSet arguments

/-- Serialized def line of the generated source: the function name and
the comma-separated extended parameter list. -/
def renderSignature (fname : String) (params arguments : List String) : String :=
  ("def ") ++ fname ++ ("(") ++
    String.intercalate (", ") (appendHoistedParams params arguments) ++ ("):")

/-- Translation of the keyword list a rewritten call site receives:
name = name for every hoisted name, in the sorted order fixed by
FuncTransformer at construction. -/
def callSiteKeywords (arguments : List String) : List AstKeyword :=
  (pySortedSet arguments).map (fun k => AstKeyword.kw k k)

/-- Permutation-equivalent hoisted-name lists have the same sorted
set. -/
theorem pySortedSet_perm (xs ys : List String) (h : xs.Perm ys) :
    pySortedSet xs = pySortedSet ys := by
  have hs1 : List.Sorted (fun a b : String => a ≤ b)
      ((xs.dedup).insertionSort (fun a b => a ≤ b)) :=
    List.sorted_insertionSort _ _
  have hs2 : List.Sorted (fun a b : String => a ≤ b)
      ((ys.dedup).insertionSort (fun a b => a ≤ b)) :=
    List.sorted_insertionSort _ _
  have hp : ((xs.dedup).insertionSort (fun a b => a ≤ b)).Perm
      ((ys.dedup).insertionSort (fun a b => a ≤ b)) :=
    ((List.perm_insertionSort _ _).trans h.dedup).trans
      (List.perm_insertionSort _ _).symm
  exact List.eq_of_perm_of_sorted hp hs1 hs2

/-- Claim C9: the analyzer is deterministic and idempotent up to the
enumeration order of the discovered chains (the only run-to-run
nondeterminism of the source, which collects them through a Python
set).  Two successful runs over permuted chain lists synthesize the
identical hoisted-argument set, the identical extended signature and
generated def line, and identical rewritten call sites, with the
hoisted parameters appended in lexicographic order of their
synthesized names. -/
theorem C9_analyzer_deterministic (g : ObjGraph) (fuel host : Nat)
    (chains1 chains2 : List (List String)) (params : List String)
    (fname : String) (a1 a2 : List String)
    (hperm : chains1.Perm chains2)
    (h1 : analyzeFunc g fuel host chains1 = Except.ok a1)
    (h2 : analyzeFunc g fuel host chains2 = Except.ok a2) :
    pySortedSet a1 = pySortedSet a2 ∧
    appendHoistedParams params a1 = appendHoistedParams params a2 ∧
    renderSignature fname params a1 = renderSignature fname params a2 ∧
    callSiteKeywords a1 = callSiteKeywords a2 ∧
    List.Sorted (fun a b => a ≤ b) (pySortedSet a1) := by
  have hp : a1.Perm a2 := analyzeFunc_perm_ok g fuel host chains1 chains2 a1 a2 hperm h1 h2
  have heq : pySortedSet a1 = pySortedSet a2 := pySortedSet_perm a1 a2 hp
  refine ⟨heq, ?_, ?_, ?_, ?_⟩
  · unfold appendHoistedParams
    rw [heq]
  · unfold renderSignature appendHoistedParams
    rw [heq]
  · unfold callSiteKeywords
    rw [heq]
  · exact List.sorted_insertionSort _ _

/-- Object graph for the C9 witness: one object named hh with two
mutable array states V and m. -/
def g9 : ObjGraph :=
  { objs := [{ name := "hh", attrs := [("V", PyAttr.var), ("m", PyAttr.var)] }] }

/-- Witness for claim C9 at concrete inputs: two analyzer runs over
the chains self.V and self.m in either enumeration order produce the
same sorted hoisted set, signature, def line and call-site keywords,
and the sorted set is lexicographically ordered. -/
theorem C9_analyzer_deterministic_witness :
    pySortedSet ["hh_V", "hh_m"] = pySortedSet ["hh_m", "hh_V"] ∧
    appendHoistedParams ["self", "t", "dt"] ["hh_V", "hh_m"] =
      appendHoistedParams ["self", "t", "dt"] ["hh_m", "hh_V"] ∧
    renderSignature "update" ["self", "t", "dt"] ["hh_V", "hh_m"] =
      renderSignature "update" ["self", "t", "dt"] ["hh_m", "hh_V"] ∧
    callSiteKeywords ["hh_V", "hh_m"] = callSiteKeywords ["hh_m", "hh_V"] ∧
    List.Sorted (fun a b => a ≤ b) (pySortedSet ["hh_V", "hh_m"]) :=
  C9_analyzer_deterministic g9 1 0 [["self", "V"], ["self", "m"]]
    [["self", "m"], ["self", "V"]] ["self", "t", "dt"] "update"
    ["hh_V", "hh_m"] ["hh_m", "hh_V"] (by decide) (by rfl) (by rfl)
